import Mathlib

/-!
Verification of the gestalt relationship-to-relational compiler.

This file gives a shallow embedding of the relevant parts of
`packages/gestalt-postgres/src/index.js` (here called generateDatabaseInterface,
as that is the module it holds) and `src/postgreSQL/generateRelationshipResolver.js`,
and proves or refutes the frozen claims about them.

JavaScript strings become `String`, optional values become `Option`, code that
can throw (the `invariant` helper) returns `Except String`, and JavaScript
objects become structures.  Insertion-ordered maps (`Map`, plain objects used
as maps) become association lists that update in place and append new keys,
matching the iteration order the source relies on.
-/

namespace Gestalt

/- ## External naming utilities

The source imports `snake-case` / `change-case` and `pluralize` from npm.
These are external collaborators (the spec lists naming/casing utilities as
out of scope), modelled here as simple executable functions with the behavior
the source relies on: `snake` lowercases and separates words with underscores,
`camel` does the inverse, `plural` naively pluralizes the final word. -/

/-- One pass of snake casing: uppercase letters open a new word, explicit
separators become underscores. -/
def snakeChars : List Char → List Char
  | [] => []
  | c :: rest =>
      if c.isUpper then '_' :: c.toLower :: snakeChars rest
      else if c = '_' ∨ c = '-' ∨ c = ' ' then '_' :: snakeChars rest
      else c :: snakeChars rest

/-- Collapse runs of consecutive underscores to a single underscore. -/
def collapseUnderscores : List Char → List Char
  | [] => []
  | [c] => [c]
  | c :: d :: rest =>
      if c = '_' ∧ d = '_' then collapseUnderscores (d :: rest)
      else c :: collapseUnderscores (d :: rest)

/-- Drop leading and trailing underscores. -/
def trimUnderscores (l : List Char) : List Char :=
  ((l.dropWhile (· = '_')).reverse.dropWhile (· = '_')).reverse

/-- Model of the external snake-case utility. -/
def snake (s : String) : String :=
  ⟨trimUnderscores (collapseUnderscores (snakeChars s.data))⟩

/-- Helper for `camel`: a letter following an underscore is uppercased and the
underscore dropped. -/
def camelChars : List Char → List Char
  | [] => []
  | '_' :: c :: rest => c.toUpper :: camelChars rest
  | c :: rest => c :: camelChars rest

/-- Model of the external camel-case utility from change-case. -/
def camel (s : String) : String :=
  ⟨camelChars s.data⟩

/-- Vowel test used by the naive pluralizer. -/
def isVowel (c : Char) : Bool :=
  c = 'a' ∨ c = 'e' ∨ c = 'i' ∨ c = 'o' ∨ c = 'u' ∨
  c = 'A' ∨ c = 'E' ∨ c = 'I' ∨ c = 'O' ∨ c = 'U'

/-- Model of the external pluralize utility (the regular English rules the
source relies on for its type names). -/
def plural (s : String) : String :=
  let cs := s.data
  match cs.getLast? with
  | none => s
  | some c =>
      if c = 's' ∨ c = 'x' ∨ c = 'z' then s ++ "es"
      else if c = 'h' &&
          (match cs.dropLast.getLast? with
           | some p => p = 'c' || p = 's'
           | none => false) then s ++ "es"
      else if c = 'y' &&
          (match cs.dropLast.getLast? with
           | some p => !(isVowel p)
           | none => false) then String.mk cs.dropLast ++ "ies"
      else s ++ "s"

/-- Source: `tableNameFromTypeName` — `snake(plural(typeName))`. -/
def tableNameFromTypeName (typeName : String) : String :=
  snake (plural typeName)

/- ## Data model for relationship segments -/

/-- The direction of a relationship segment: the source uses the string
values in and out (in is a Lean keyword, so the constructors are
`din` and `dout`). -/
inductive Direction
  | din
  | dout
deriving DecidableEq, Repr

/-- Cardinality of a relationship segment, the source strings singular and
plural. -/
inductive Cardinality
  | singular
  | plural
deriving DecidableEq, Repr

/-- Source type `RelationshipSegment`: one directed hop of a relationship. -/
structure RelationshipSegment where
  fromType : String
  toType : String
  label : String
  direction : Direction
  cardinality : Cardinality
  nonNull : Bool
deriving DecidableEq, Repr

/-- Source type `Relationship`: an exposed field backed by a path of hops. -/
structure Relationship where
  fieldName : String
  cardinality : Cardinality
  path : List RelationshipSegment
deriving DecidableEq, Repr

/-- Source type `RelationshipSegmentPair`: the optional in and out segments
sharing one pairing signature (fields `inSeg`/`outSeg` stand for the source
keys in and out; in is a Lean keyword). -/
structure RelationshipSegmentPair where
  inSeg : Option RelationshipSegment
  outSeg : Option RelationshipSegment
deriving DecidableEq, Repr

/-- Source type `ForeignKeyDescription`. -/
structure ForeignKeyDescription where
  direction : Direction
  nonNull : Bool
  table : String
  referencedTable : String
  column : String
deriving DecidableEq, Repr

/-- Source type `JoinTableDescription`. -/
structure JoinTableDescription where
  name : String
  leftTableName : String
  rightTableName : String
  leftColumnName : String
  rightColumnName : String
deriving DecidableEq, Repr

/-- The storage variant of a `RelationshipSegmentDescription`: the source is a
tagged union on its `type` field (join or foreignKey). -/
inductive StorageDescription
  | join : JoinTableDescription → StorageDescription
  | foreignKey : ForeignKeyDescription → StorageDescription
deriving DecidableEq, Repr

/-- Source type `RelationshipSegmentDescription` (the `type` tag lives in the
`storage` variant). -/
structure RelationshipSegmentDescription where
  signature : String
  pair : RelationshipSegmentPair
  storage : StorageDescription
deriving DecidableEq, Repr

/-- The source `type` discriminator string of a description. -/
def RelationshipSegmentDescription.descType
    (d : RelationshipSegmentDescription) : String :=
  match d.storage with
  | .join _ => "join"
  | .foreignKey _ => "foreignKey"

/- ## Segment resolver (generateDatabaseInterface.js) -/

/-- Source: `pairingSignatureFromRelationshipSegment` — the
direction-normalized signature of a segment. -/
def pairingSignatureFromRelationshipSegment (segment : RelationshipSegment) :
    String :=
  match segment.direction with
  | .din => segment.toType ++ "|" ++ segment.label ++ "|" ++ segment.fromType
  | .dout => segment.fromType ++ "|" ++ segment.label ++ "|" ++ segment.toType

/-- Source: `identitySignatureFromRelationshipSegment` — joins the four
identifying fields with a pipe. -/
def identitySignatureFromRelationshipSegment (segment : RelationshipSegment) :
    String :=
  segment.fromType ++ "|" ++ segment.toType ++ "|" ++ segment.label ++ "|" ++
    (match segment.direction with | .din => "in" | .dout => "out")

/-- Insertion-ordered map update: replace the value of an existing key in
place, append a new key (the behavior of a JavaScript `Map.set`). -/
def setEntry {α : Type} (m : List (String × α)) (k : String) (v : α) :
    List (String × α) :=
  match m with
  | [] => [(k, v)]
  | (k0, v0) :: rest =>
      if k0 = k then (k0, v) :: rest else (k0, v0) :: setEntry rest k v

/-- Insertion-ordered association lookup. -/
def getEntry {α : Type} (m : List (String × α)) (k : String) : Option α :=
  match m with
  | [] => none
  | (k0, v0) :: rest => if k0 = k then some v0 else getEntry rest k

/-- Source: `flattenedUniqueSegmentsFromRelationships` — flatten every path
and deduplicate by identity signature, where a later segment replaces an
earlier one only if the earlier one is not non-null. -/
def flattenedUniqueSegmentsFromRelationships
    (relationships : List Relationship) : List RelationshipSegment :=
  (relationships.foldl
    (fun m relationship =>
      relationship.path.foldl
        (fun m segment =>
          let signature := identitySignatureFromRelationshipSegment segment
          match getEntry m signature with
          | none => setEntry m signature segment
          | some existingSegment =>
              if !existingSegment.nonNull then setEntry m signature segment
              else m)
        m)
    []).map (·.2)

/-- Source: `segmentPairRequiresJoinTable` — true when every present segment
is plural. -/
def segmentPairRequiresJoinTable (pair : RelationshipSegmentPair) : Bool :=
  (match pair.inSeg with
   | none => true
   | some s => s.cardinality = Cardinality.plural) &&
  (match pair.outSeg with
   | none => true
   | some s => s.cardinality = Cardinality.plural)

/-- Source: `joinTableDescriptionFromRelationshipSegmentPair`.  The invariant
on a pair with no segments becomes `Except.error`. -/
def joinTableDescriptionFromRelationshipSegmentPair
    (pair : RelationshipSegmentPair) : Except String JoinTableDescription :=
  let left := (pair.outSeg.map (·.fromType)).orElse
    (fun _ => pair.inSeg.map (·.toType))
  let right := (pair.outSeg.map (·.toType)).orElse
    (fun _ => pair.inSeg.map (·.fromType))
  let label := (pair.outSeg.map (·.label)).orElse
    (fun _ => pair.inSeg.map (·.label))
  match left, right, label with
  | some left, some right, some label =>
      Except.ok
        { name := tableNameFromTypeName (left ++ "_" ++ label ++ "_" ++ right)
          leftTableName := tableNameFromTypeName left
          rightTableName := tableNameFromTypeName right
          leftColumnName := snake (left ++ "_id")
          rightColumnName := snake (label ++ "_" ++ right ++ "_id") }
  | _, _, _ =>
      Except.error "relationship segment pair must have at least one segment"

/-- Source: `foreignKeyDescriptionFromRelationshipSegmentPair`.  When only an
out segment exists it is normalized to inbound form; when both exist the in
segment is taken when it is plural or when the out segment is non-null and the
in segment is not, and the out segment otherwise.  The invariant on an empty
pair becomes `Except.error`. -/
def foreignKeyDescriptionFromRelationshipSegmentPair
    (pair : RelationshipSegmentPair) : Except String ForeignKeyDescription :=
  let normalType? : Option RelationshipSegment :=
    match pair.inSeg, pair.outSeg with
    | none, none => none
    | none, some o =>
        some { o with
          direction := Direction.din
          fromType := o.toType
          toType := o.fromType }
    | some i, none => some i
    | some i, some o =>
        some
          (if i.cardinality = Cardinality.plural ∨ (o.nonNull ∧ ¬ i.nonNull)
           then i else o)
  match normalType? with
  | none => Except.error "input pair does not require a foreign key"
  | some normalType =>
      Except.ok
        { direction := normalType.direction
          nonNull :=
            (match pair.outSeg with | some o => o.nonNull | none => false) ||
            (match pair.inSeg with | some i => i.nonNull | none => false)
          table := tableNameFromTypeName normalType.toType
          referencedTable := tableNameFromTypeName normalType.fromType
          column := snake
            (match normalType.direction with
             | .din => normalType.label ++ "_" ++ normalType.fromType ++ "_id"
             | .dout =>
                 normalType.label ++ "_by_" ++ normalType.fromType ++ "_id") }

/-- Group a list of segments into an insertion-ordered map from pairing
signature to the segments carrying it (the `segmentMap` object in
`segmentDescriptionsFromRelationships`). -/
def groupSegmentsBySignature (segments : List RelationshipSegment) :
    List (String × List RelationshipSegment) :=
  segments.foldl
    (fun m segment =>
      let signature := pairingSignatureFromRelationshipSegment segment
      match getEntry m signature with
      | none => setEntry m signature [segment]
      | some bucket => setEntry m signature (bucket ++ [segment]))
    []

/-- Build the `{in?, out?}` pair of a signature bucket: each segment is
written to the slot of its direction, later segments overwriting earlier
ones. -/
def pairFromSegments (segments : List RelationshipSegment) :
    RelationshipSegmentPair :=
  segments.foldl
    (fun pair segment =>
      match segment.direction with
      | .din => { pair with inSeg := some segment }
      | .dout => { pair with outSeg := some segment })
    ⟨none, none⟩

/-- Source: `segmentDescriptionsFromRelationships` — flatten, group by pairing
signature, and resolve each pair to a join-table or foreign-key storage
decision. -/
def segmentDescriptionsFromRelationships (relationships : List Relationship) :
    Except String (List RelationshipSegmentDescription) :=
  let segments := flattenedUniqueSegmentsFromRelationships relationships
  let segmentMap := groupSegmentsBySignature segments
  segmentMap.mapM
    (fun entry =>
      let signature := entry.1
      let pair := pairFromSegments entry.2
      if segmentPairRequiresJoinTable pair then
        (joinTableDescriptionFromRelationshipSegmentPair pair).map
          (fun storage => ⟨signature, pair, .join storage⟩)
      else
        (foreignKeyDescriptionFromRelationshipSegmentPair pair).map
          (fun storage => ⟨signature, pair, .foreignKey storage⟩))

/- ## Query intermediate representation (generateRelationshipResolver.js) -/

/-- A table/column reference, the `{table, column}` objects inside join
conditions. -/
structure TableColumn where
  table : String
  column : String
deriving DecidableEq, Repr

/-- The equality condition of a join: `left = right`. -/
structure JoinOn where
  left : TableColumn
  right : TableColumn
deriving DecidableEq, Repr

/-- Source type `Join`: joined table plus its ON condition. -/
structure Join where
  table : String
  condition : JoinOn
deriving DecidableEq, Repr

/-- Source type `Condition`: one WHERE conjunct. -/
structure Condition where
  table : String
  column : String
  operator : String
  value : String
deriving DecidableEq, Repr

/-- The ORDER BY part produced by `applyConnectionArgs`. -/
structure Order where
  column : String
  direction : String
deriving DecidableEq, Repr

/-- Source type `Query`: the intermediate representation rendered to SQL.
`queryFromRelationship` sets `batched := true`; the object returned by
`applyConnectionArgs` carries no batched key, modelled as `false`. -/
structure Query where
  table : String
  joins : List Join
  conditions : List Condition
  limit : Option Nat := none
  order : Option Order := none
  batched : Bool := false
deriving DecidableEq, Repr

/-- The map from pairing signature to description handed to the resolver
(`keyMap(segmentDescriptions, d => d.signature)`). -/
def SegmentDescriptionMap : Type := List (String × RelationshipSegmentDescription)

/-- Source: `keyMap(segmentDescriptions, segment => segment.signature)`. -/
def segmentDescriptionMapFromDescriptions
    (descriptions : List RelationshipSegmentDescription) :
    SegmentDescriptionMap :=
  descriptions.foldl (fun m d => setEntry m d.signature d) []

/-- Source: `descriptionFromSegment` — look the segment up by its pairing
signature (an absent entry, which would crash the source, is `none`). -/
def descriptionFromSegment (segmentDescriptionMap : SegmentDescriptionMap)
    (segment : RelationshipSegment) : Option RelationshipSegmentDescription :=
  getEntry segmentDescriptionMap
    (pairingSignatureFromRelationshipSegment segment)

/-- Source: `conditionFromSegment` — the WHERE conjunct anchored at the first
hop of a path, comparing against the batched key set. -/
def conditionFromSegment (segmentDescriptionMap : SegmentDescriptionMap)
    (segment : RelationshipSegment) : Option Condition := do
  let description ← descriptionFromSegment segmentDescriptionMap segment
  match description.storage with
  | .foreignKey storage =>
      if segment.direction = storage.direction then
        pure { table := storage.table, column := storage.column,
               operator := "=", value := "ANY ($1)" }
      else
        pure { table := storage.referencedTable, column := "id",
               operator := "=", value := "ANY ($1)" }
  | .join storage =>
      match segment.direction with
      | .din =>
          pure { table := storage.name, column := storage.rightColumnName,
                 operator := "=", value := "ANY ($1)" }
      | .dout =>
          pure { table := storage.name, column := storage.leftColumnName,
                 operator := "=", value := "ANY ($1)" }

/-- The joins pushed for one non-initial segment inside the loop of
`joinsFromSegments`. -/
def joinsForSegment (description : RelationshipSegmentDescription)
    (segment : RelationshipSegment) : List Join :=
  let toTableName := tableNameFromTypeName segment.toType
  match description.storage with
  | .foreignKey storage =>
      if segment.direction = storage.direction then
        [{ table := storage.referencedTable
           condition :=
             { left := ⟨storage.referencedTable, "id"⟩
               right := ⟨storage.table, storage.column⟩ } }]
      else
        [{ table := storage.table
           condition :=
             { left := ⟨storage.table, storage.column⟩
               right := ⟨storage.referencedTable, "id"⟩ } }]
  | .join storage =>
      if toTableName = storage.leftTableName then
        [{ table := storage.name
           condition :=
             { left := ⟨storage.name, storage.leftColumnName⟩
               right := ⟨storage.leftTableName, "id"⟩ } },
         { table := storage.rightTableName
           condition :=
             { left := ⟨storage.rightTableName, "id"⟩
               right := ⟨storage.name, storage.rightColumnName⟩ } }]
      else
        [{ table := storage.name
           condition :=
             { left := ⟨storage.name, storage.rightColumnName⟩
               right := ⟨toTableName, "id"⟩ } },
         { table := storage.leftTableName
           condition :=
             { left := ⟨storage.leftTableName, "id"⟩
               right := ⟨storage.name, storage.leftColumnName⟩ } }]

/-- Source: `joinsFromSegments` — the loop walks the segments from the far end
backward (index length-1 down to 0), pushing joins for each. -/
def joinsFromSegments (segmentDescriptionMap : SegmentDescriptionMap)
    (segments : List RelationshipSegment) : Option (List Join) := do
  let joinLists ← segments.reverse.mapM
    (fun segment => do
      let description ← descriptionFromSegment segmentDescriptionMap segment
      pure (joinsForSegment description segment))
  pure joinLists.flatten

/-- Source: `joinsFromInitialSegment` — a join-table first hop contributes the
association-table join, a foreign-key first hop contributes none. -/
def joinsFromInitialSegment (segmentDescriptionMap : SegmentDescriptionMap)
    (segment : RelationshipSegment) : Option (List Join) := do
  let description ← descriptionFromSegment segmentDescriptionMap segment
  match description.storage with
  | .join storage =>
      match segment.direction with
      | .din =>
          pure [{ table := storage.name
                  condition :=
                    { left := ⟨storage.name, storage.leftColumnName⟩
                      right := ⟨storage.leftTableName, "id"⟩ } }]
      | .dout =>
          pure [{ table := storage.name
                  condition :=
                    { left := ⟨storage.name, storage.rightColumnName⟩
                      right := ⟨storage.rightTableName, "id"⟩ } }]
  | .foreignKey _ => pure []

/-- Source: `joinsFromPath` — joins from all segments after the first,
followed by the joins of the initial segment. -/
def joinsFromPath (segmentDescriptionMap : SegmentDescriptionMap)
    (segments : List RelationshipSegment) : Option (List Join) :=
  match segments with
  | [] => none
  | initialSegment :: rest => do
      let tailJoins ← joinsFromSegments segmentDescriptionMap rest
      let initialJoins ←
        joinsFromInitialSegment segmentDescriptionMap initialSegment
      pure (tailJoins ++ initialJoins)

/-- Source: `compactJoins` — a single left-to-right pass collapsing a join
whose left endpoint equals the right endpoint of the following join into one
join, skipping the pair. -/
def compactJoins : List Join → List Join
  | [] => []
  | [j] => [j]
  | j :: next :: rest =>
      if j.condition.left.table = next.condition.right.table ∧
         j.condition.left.column = next.condition.right.column then
        { table := next.table
          condition := { left := next.condition.left
                         right := j.condition.right } } :: compactJoins rest
      else
        j :: compactJoins (next :: rest)

/-- Source: `queryFromRelationship` — table of the terminal type, compacted
joins of the path, the single batched condition of the first hop. -/
def queryFromRelationship (segmentDescriptionMap : SegmentDescriptionMap)
    (relationship : Relationship) : Option Query :=
  match relationship.path with
  | [] => none
  | initialSegment :: rest => do
      let finalSegment := rest.getLastD initialSegment
      let joins ← joinsFromPath segmentDescriptionMap relationship.path
      let condition ←
        conditionFromSegment segmentDescriptionMap initialSegment
      pure { table := tableNameFromTypeName finalSegment.toType
             joins := compactJoins joins
             conditions := [condition]
             batched := true }

/-- Source: `sqlStringFromQuery` — the literal rendering of a query. -/
def sqlStringFromQuery (query : Query) : String :=
  "SELECT " ++ query.table ++ ".* FROM " ++ query.table ++
  String.join
    (query.joins.map
      (fun join =>
        " JOIN " ++ join.table ++ " ON " ++
        join.condition.left.table ++ "." ++ join.condition.left.column ++
        " = " ++
        join.condition.right.table ++ "." ++ join.condition.right.column)) ++
  " WHERE " ++
  String.intercalate " AND "
    (query.conditions.map
      (fun c => c.table ++ "." ++ c.column ++ " " ++ c.operator ++ " " ++
        c.value)) ++
  (match query.order with
   | some order =>
       " ORDER BY " ++ query.table ++ "." ++ order.column ++ " " ++
         order.direction
   | none => "") ++
  (match query.limit with
   | some limit => " LIMIT " ++ toString limit
   | none => "") ++ ";"

/- ## Pagination extension -/

/-- Source type `ConnectionArguments` (the subset read by
`applyConnectionArgs`). -/
structure ConnectionArguments where
  first : Option Nat := none
  last : Option Nat := none
  before : Option String := none
  after : Option String := none
  order : Option String := none
deriving DecidableEq, Repr

/-- Source: `applyConnectionArgs` — the invariant against combining forward
and backward paging becomes `Except.error`; otherwise the query is rebuilt
with order, limit and the optional cursor condition. -/
def applyConnectionArgs (query : Query) (args : ConnectionArguments) :
    Except String Query :=
  let column := match args.order with | none => "seq" | some o => snake o
  let value :=
    "(SELECT " ++ column ++ " FROM " ++ query.table ++ " WHERE id = $2)"
  if (args.first = none ∧ args.after = none) ∨
     (args.last = none ∧ args.before = none) then
    let limit := match args.first with | some f => some f | none => args.last
    let order : Order :=
      { column := column
        direction :=
          if args.last ≠ none ∨ args.before ≠ none then "DESC" else "ASC" }
    let conditions :=
      if args.after ≠ none then
        query.conditions ++
          [{ table := query.table, column := column, operator := ">",
             value := value }]
      else if args.before ≠ none then
        query.conditions ++
          [{ table := query.table, column := column, operator := "<",
             value := value }]
      else query.conditions
    Except.ok
      { table := query.table
        joins := query.joins
        conditions := conditions
        limit := limit
        order := some order
        batched := false }
  else
    Except.error "forward and reverse pagination arguments should not be combined"

/- ## Key columns of the batched loaders -/

/-- Source: `objectKeyColumnFromRelationship` — the camel-cased foreign-key
column when the first hop resolves to a foreign key stored against the
traversal direction, and id otherwise. -/
def objectKeyColumnFromRelationship
    (segmentDescriptionMap : SegmentDescriptionMap)
    (relationship : Relationship) : Option String := do
  let segment ← relationship.path.head?
  let description ← descriptionFromSegment segmentDescriptionMap segment
  match description.storage with
  | .foreignKey storage =>
      if segment.direction ≠ storage.direction then
        pure (camel storage.column)
      else pure "id"
  | .join _ => pure "id"

/-- Source: `resolvedKeyColumnFromRelationship` — the camel-cased foreign-key
column when the first hop resolves to a foreign key stored along the traversal
direction, and id otherwise. -/
def resolvedKeyColumnFromRelationship
    (segmentDescriptionMap : SegmentDescriptionMap)
    (relationship : Relationship) : Option String := do
  let segment ← relationship.path.head?
  let description ← descriptionFromSegment segmentDescriptionMap segment
  match description.storage with
  | .foreignKey storage =>
      if segment.direction = storage.direction then
        pure (camel storage.column)
      else pure "id"
  | .join _ => pure "id"

/- ## Schema compiler subset (tables and columns) -/

/-- A GraphQL name AST node: an object holding the actual string in its
`value` field. -/
structure NameNode where
  value : String
deriving DecidableEq, Repr

/-- A directive attached to a field (only its name matters here). -/
structure Directive where
  name : NameNode
deriving DecidableEq, Repr

/-- The GraphQL type AST subset the schema compiler reads. -/
inductive GType
  | namedType (name : NameNode)
  | listType (inner : GType)
  | nonNullType (inner : GType)
deriving DecidableEq, Repr

/-- Source type `FieldDefinition` (name node, type AST, directives). -/
structure FieldDefinition where
  name : NameNode
  type : GType
  directives : List Directive
deriving DecidableEq, Repr

/-- Source type `ObjectTypeDefinition`. -/
structure ObjectTypeDefinition where
  name : NameNode
  fields : List FieldDefinition
deriving DecidableEq, Repr

/-- A foreign-key reference of a column. -/
structure Reference where
  table : String
  column : String
deriving DecidableEq, Repr

/-- Source type `Column` (the column type is kept as its literal string). -/
structure Column where
  name : String
  type : String
  primaryKey : Bool
  nonNull : Bool
  unique : Bool
  defaultValue : Option String
  references : Option Reference
deriving DecidableEq, Repr

/-- A table constraint (`{type: UNIQUE, columns}`). -/
structure Constraint where
  ctype : String
  columns : List String
deriving DecidableEq, Repr

/-- Source type `Table`. -/
structure Table where
  name : String
  columns : List Column
  constraints : List Constraint
deriving DecidableEq, Repr

/-- Source: `isDatabaseField` — true unless a virtual or relationship
directive is present (absent directives behave like an empty list). -/
def isDatabaseField (definition : FieldDefinition) : Bool :=
  !(definition.directives.any
    (fun d => d.name.value = "virtual" ∨ d.name.value = "relationship"))

/-- The comparison `definition.name !== 'seq'` in the source
`validateDatabaseField`.  `definition.name` is the name AST node, an object
(every other call site reads `definition.name.value`); JavaScript strict
equality between an object and a string is always false, so this models the
strict-equality half as constantly false. -/
def nameNodeStrictEqualsString (_name : NameNode) (_s : String) : Bool :=
  false

/-- Source: `validateDatabaseField` — `invariant(definition.name !== 'seq', …)`.
Because the comparison is between the name node and a string (see
`nameNodeStrictEqualsString`), the invariant can never fire. -/
def validateDatabaseField (definition : FieldDefinition) :
    Except String Unit :=
  if !(nameNodeStrictEqualsString definition.name "seq") then Except.ok ()
  else
    Except.error "The seq field is reserved by Gestalt and cannot be defined"

/-- Source: `isNonNullType`. -/
def isNonNullType : GType → Bool
  | .nonNullType _ => true
  | _ => false

/-- Model of gestalt-utils `baseType` (only its re-export appears under src/):
unwrap non-null and list wrappers down to the named type. -/
def baseType : GType → NameNode
  | .namedType name => name
  | .listType inner => baseType inner
  | .nonNullType inner => baseType inner

/-- Source: `columnTypeFromGraphQLType`.  The guard `if (type.isListType)`
reads a property that GraphQL AST nodes do not carry (the helper of that name
lives elsewhere), so it is always undefined, hence falsy, and the switch on
the base type name alone decides. -/
def columnTypeFromGraphQLType (type : GType) : String :=
  match (baseType type).value with
  | "ID" => "uuid"
  | "String" => "text"
  | "Int" => "integer"
  | "Float" => "double precision"
  | "Date" => "timestamp without time zone"
  | "Money" => "money"
  | "SERIAL" => "SERIAL"
  | _ => "jsonb"

/-- Source: `columnFromFieldDefintion` (sic). -/
def columnFromFieldDefintion (definition : FieldDefinition) : Column :=
  let isId := definition.name.value = "id"
  { name := snake definition.name.value
    type := columnTypeFromGraphQLType definition.type
    primaryKey := isId
    nonNull := isNonNullType definition.type
    unique := definition.directives.any (fun d => d.name.value = "unique")
    defaultValue := if isId then some "gen_random_uuid()" else none
    references := none }

/-- The implicit auto-incrementing seq column every table receives. -/
def seqColumn : Column :=
  { name := "seq"
    type := "SERIAL"
    primaryKey := false
    nonNull := true
    unique := true
    defaultValue := none
    references := none }

/-- Source: `tableFromObjectTypeDefinition` — the seq column followed by one
column per database field, validating each database field. -/
def tableFromObjectTypeDefinition (definition : ObjectTypeDefinition) :
    Except String Table := do
  let columns ← definition.fields.foldlM
    (fun columns field =>
      if isDatabaseField field then do
        validateDatabaseField field
        pure (columns ++ [columnFromFieldDefintion field])
      else pure columns)
    [seqColumn]
  pure { name := tableNameFromTypeName definition.name.value
         columns := columns
         constraints := [] }

/- ## Batched resolution engine (singular loader) -/

/-- A database row, modelled as its column/value pairs. -/
structure Row where
  fields : List (String × String)
deriving DecidableEq, Repr

/-- Read one column of a row. -/
def rowGet (row : Row) (column : String) : Option String :=
  getEntry row.fields column

/-- Modelled from the spec: gestalt-utils `keyMap` (only its re-export appears
under src/) groups rows by a key function into a key-addressed map, later rows
with the same key replacing earlier ones. -/
def keyMapRows (rows : List Row) (f : Row → String) : List (String × Row) :=
  rows.foldl (fun m row => setEntry m (f row) row) []

/-- The batch function built by `generateSingularRelationshipLoader`: group
the query results by the resolved key column and return, for each requested
key in order, the matching row (a missing column indexes the map like the
JavaScript string undefined). -/
def singularBatchFunction (keyColumn : String) (results : List Row)
    (keys : List String) : List (Option Row) :=
  let resultsByKey :=
    keyMapRows results (fun row => (rowGet row keyColumn).getD "undefined")
  keys.map (fun key => getEntry resultsByKey key)

/-- Modelled from the spec: the external dataloader package deduplicates the
keys of one batch in first-seen order. -/
def dedupKeys (keys : List String) : List String :=
  keys.foldl (fun acc key => if acc.contains key then acc else acc ++ [key]) []

/-- Position of a key in the deduplicated key list (DataLoader hands each
caller the batch result at the index of its key). -/
def indexOfKey : List String → String → Nat
  | [], _ => 0
  | k :: rest, key => if k = key then 0 else indexOfKey rest key + 1

/-- A statement execution observed by the model executor: the SQL text and
the bound parameter list. -/
structure ExecutedStatement where
  sql : String
  params : List (List String)
deriving DecidableEq, Repr

/-- Modelled from the spec: the per-request batching engine of §4.6 (the
external dataloader package plus `generateSingularRelationshipLoader`).  The
load calls of one batch are collected, their keys deduplicated in first-seen
order, the prepared statement is executed exactly once with the unique keys
bound as the single batched parameter, and each caller receives the batch
result at the index of its key — so duplicate keys share one cached row.
Returns the per-call results in call order together with the list of executed
statements. -/
def singularLoadMany (keyColumn : String) (sql : String)
    (execute : String → List (List String) → List Row)
    (keys : List String) : List (Option Row) × List ExecutedStatement :=
  let uniqueKeys := dedupKeys keys
  let results := execute sql [uniqueKeys]
  let batchResults := singularBatchFunction keyColumn results uniqueKeys
  (keys.map (fun key => (batchResults.get? (indexOfKey uniqueKeys key)).join),
   [{ sql := sql, params := [uniqueKeys] }])

/- ## Substring counting (used to inspect rendered SQL) -/

/-- Whether the first list is a prefix of the second. -/
def isPrefixList : List Char → List Char → Bool
  | [], _ => true
  | _ :: _, [] => false
  | c :: cs, d :: ds => c = d && isPrefixList cs ds

/-- Count the positions where `pat` occurs in `l`. -/
def countOccurrencesAux (pat : List Char) : List Char → Nat
  | [] => 0
  | c :: rest =>
      (if isPrefixList pat (c :: rest) then 1 else 0) +
        countOccurrencesAux pat rest

/-- Count occurrences of a pattern string inside a string. -/
def countOccurrences (s pat : String) : Nat :=
  countOccurrencesAux pat.data s.data

/- ## Concrete fixtures used by the theorems -/

/-- An inbound plural sample segment. -/
def sampleInPlural : RelationshipSegment :=
  ⟨"User", "Post", "authored", .din, .plural, false⟩

/-- An outbound plural sample segment (the flip of `sampleInPlural`). -/
def sampleOutPlural : RelationshipSegment :=
  ⟨"Post", "User", "authored", .dout, .plural, false⟩

/-- An inbound singular sample segment. -/
def sampleInSingular : RelationshipSegment :=
  ⟨"User", "Post", "authored", .din, .singular, false⟩

/- ## Claim theorems -/

/-- Claim C2: `segmentPairRequiresJoinTable` returns true iff every segment
present in the pair is plural; concretely {in: plural, out: plural} gives
true, {in: singular, out: plural} gives false, {in: singular, out: null}
gives false, and {in: plural, out: null} gives true. -/
theorem segmentPairRequiresJoinTable_iff_every_present_segment_plural :
    (∀ pair : RelationshipSegmentPair,
      segmentPairRequiresJoinTable pair = true ↔
        ((∀ s, pair.inSeg = some s → s.cardinality = Cardinality.plural) ∧
         (∀ s, pair.outSeg = some s → s.cardinality = Cardinality.plural))) ∧
    segmentPairRequiresJoinTable ⟨some sampleInPlural, some sampleOutPlural⟩
      = true ∧
    segmentPairRequiresJoinTable ⟨some sampleInSingular, some sampleOutPlural⟩
      = false ∧
    segmentPairRequiresJoinTable ⟨some sampleInSingular, none⟩ = false ∧
    segmentPairRequiresJoinTable ⟨some sampleInPlural, none⟩ = true := by
  refine ⟨?_, by decide, by decide, by decide, by decide⟩
  intro pair
  obtain ⟨i, o⟩ := pair
  rcases i with _ | s <;> rcases o with _ | t <;>
    simp [segmentPairRequiresJoinTable]

/-- Claim C5: `applyConnectionArgs` fails exactly when a forward argument
(first or after) is combined with a backward argument (last or before), and
succeeds when at most one group is supplied. -/
theorem applyConnectionArgs_error_iff_forward_and_backward
    (query : Query) (args : ConnectionArguments) :
    (∃ e, applyConnectionArgs query args = Except.error e) ↔
      ((args.first ≠ none ∨ args.after ≠ none) ∧
       (args.last ≠ none ∨ args.before ≠ none)) := by
  unfold applyConnectionArgs
  split_ifs with h
  · simp only [reduceCtorEq, exists_false, false_iff]
    rcases h with ⟨h1, h2⟩ | ⟨h1, h2⟩ <;> tauto
  · simp only [Except.error.injEq, exists_eq', true_iff]
    push_neg at h
    tauto

/-- True when some join may be collapsed into the one that follows it (the
merge test of `compactJoins` holds for an adjacent pair). -/
def hasCollapsiblePair : List Join → Bool
  | [] => false
  | [_] => false
  | j :: next :: rest =>
      decide (j.condition.left.table = next.condition.right.table ∧
        j.condition.left.column = next.condition.right.column) ||
      hasCollapsiblePair (next :: rest)

/-- A join list without a collapsible adjacent pair is left unchanged by
`compactJoins`. -/
theorem compactJoins_eq_self_of_no_collapsible_pair :
    ∀ joins : List Join, hasCollapsiblePair joins = false →
      compactJoins joins = joins
  | [], _ => rfl
  | [_], _ => rfl
  | j :: next :: rest, h => by
      unfold hasCollapsiblePair at h
      rw [Bool.or_eq_false_iff] at h
      unfold compactJoins
      rw [if_neg (of_decide_eq_false h.1)]
      rw [compactJoins_eq_self_of_no_collapsible_pair (next :: rest) h.2]

/-- Claim C7 (amended): `compactJoins` is idempotent on any join list whose
single-pass output has no further collapsible adjacent pair; a chain of three
pairwise-linked joins can collapse further on a second pass, so idempotence
does not hold for every join list. -/
theorem compactJoins_idempotent_when_output_stable
    (joins : List Join) (h : hasCollapsiblePair (compactJoins joins) = false) :
    compactJoins (compactJoins joins) = compactJoins joins :=
  compactJoins_eq_self_of_no_collapsible_pair (compactJoins joins) h

/-- A chain of three joins in which the pair merged by the first pass becomes
collapsible with the third join only on a second pass. -/
def collapsibleChain : List Join :=
  [⟨"ta", ⟨⟨"P", "p"⟩, ⟨"Q", "q"⟩⟩⟩,
   ⟨"tb", ⟨⟨"R", "r"⟩, ⟨"P", "p"⟩⟩⟩,
   ⟨"tc", ⟨⟨"S", "s"⟩, ⟨"R", "r"⟩⟩⟩]

/-- Claim C7 counterexample: compacting the already-compacted
`collapsibleChain` changes it again, so `compactJoins` is not idempotent on
every join list. -/
theorem compactJoins_not_idempotent_on_collapsibleChain :
    compactJoins (compactJoins collapsibleChain) ≠
      compactJoins collapsibleChain := by
  decide

/-- Witness for the amended claim C7 at a concrete stable list. -/
theorem compactJoins_idempotent_when_output_stable_witness :
    compactJoins (compactJoins [(⟨"ta", ⟨⟨"P", "p"⟩, ⟨"Q", "q"⟩⟩⟩ : Join),
        ⟨"tb", ⟨⟨"R", "r"⟩, ⟨"S", "s"⟩⟩⟩]) =
      compactJoins [(⟨"ta", ⟨⟨"P", "p"⟩, ⟨"Q", "q"⟩⟩⟩ : Join),
        ⟨"tb", ⟨⟨"R", "r"⟩, ⟨"S", "s"⟩⟩⟩] :=
  compactJoins_idempotent_when_output_stable _ (by decide)

/-- The first hop of the two-hop round-trip fixture:
Author --out:wrote--> Post, plural, stored in a join table. -/
def authorWroteSegment : RelationshipSegment :=
  ⟨"Author", "Post", "wrote", .dout, .plural, false⟩

/-- The second hop of the two-hop round-trip fixture:
Post --out:hasTag--> Tag, plural, stored in a join table. -/
def postHasTagSegment : RelationshipSegment :=
  ⟨"Post", "Tag", "hasTag", .dout, .plural, false⟩

/-- The two-hop relationship Author -> Post -> Tag. -/
def authorTagsRelationship : Relationship :=
  ⟨"taggedPosts", .plural, [authorWroteSegment, postHasTagSegment]⟩

/-- The description map the segment resolver produces for the two-hop
fixture (both hops resolve to join tables). -/
def authorTagsDescriptionMap : SegmentDescriptionMap :=
  segmentDescriptionMapFromDescriptions
    ((segmentDescriptionsFromRelationships [authorTagsRelationship]).toOption.getD [])

/-- The statement rendered for the two-hop fixture. -/
def authorTagsSql : String :=
  ((queryFromRelationship authorTagsDescriptionMap
    authorTagsRelationship).map sqlStringFromQuery).getD ""

set_option maxRecDepth 100000 in
/-- Claim C6: compiling the two-hop path Author --out:wrote--> Post then
Post --out:hasTag--> Tag across join tables and rendering the compacted query
yields exactly two surviving joins (two JOIN clauses) and exactly one batched
WHERE condition of the form = ANY ($1). -/
theorem authorTags_roundtrip_two_joins_one_batched_condition :
    ((queryFromRelationship authorTagsDescriptionMap
        authorTagsRelationship).map (fun q => q.joins.length)) = some 2 ∧
    ((queryFromRelationship authorTagsDescriptionMap
        authorTagsRelationship).map (fun q => q.conditions)) =
      some [{ table := "author_wrote_posts", column := "author_id",
              operator := "=", value := "ANY ($1)" }] ∧
    countOccurrences authorTagsSql "JOIN" = 2 ∧
    countOccurrences authorTagsSql "= ANY ($1)" = 1 := by
  refine ⟨rfl, rfl, ?_, ?_⟩ <;> decide

/-- An entity declaring the reserved field name seq as a plain database
field (together with an id and an ordinary field). -/
def entityWithSeqField : ObjectTypeDefinition :=
  ⟨⟨"User"⟩,
   [⟨⟨"id"⟩, .nonNullType (.namedType ⟨"ID"⟩), []⟩,
    ⟨⟨"seq"⟩, .namedType ⟨"Int"⟩, []⟩,
    ⟨⟨"name"⟩, .namedType ⟨"String"⟩, []⟩]⟩

/-- Claim C9 evaluation at the failing input: compiling an entity that
declares a field named seq does not fail — the reserved-name invariant
compares the name AST node with a string and can never fire — and the
resulting table silently carries two columns named seq. -/
theorem tableFromObjectTypeDefinition_accepts_seq_field :
    (tableFromObjectTypeDefinition entityWithSeqField).map
      (fun t => t.columns.map (·.name)) =
    Except.ok ["seq", "id", "seq", "name"] := by
  rfl

/-- Claim C4: within one request, three singular-loader calls with keys
[A, B, A] execute exactly one statement, with the deduplicated key set bound
as the single batched parameter, and return the rows in call order, the
duplicate key receiving the identical cached row both times. -/
theorem singularLoadMany_batches_dedupes_and_preserves_order
    (A B keyColumn sql : String) (rowA rowB : Row)
    (execute : String → List (List String) → List Row)
    (hne : A ≠ B)
    (hexec : execute sql [[A, B]] = [rowA, rowB])
    (hA : rowGet rowA keyColumn = some A)
    (hB : rowGet rowB keyColumn = some B) :
    singularLoadMany keyColumn sql execute [A, B, A] =
      ([some rowA, some rowB, some rowA],
       [{ sql := sql, params := [[A, B]] }]) := by
  have hdedup : dedupKeys [A, B, A] = [A, B] := by
    simp [dedupKeys, List.contains, List.elem, hne, Ne.symm hne]
  simp [singularLoadMany, hdedup, hexec, singularBatchFunction, keyMapRows,
    setEntry, getEntry, indexOfKey, hA, hB, hne, Ne.symm hne]

/-- Witness rows for the batching claim. -/
def witnessRowA : Row := ⟨[("k", "a")]⟩

/-- Second witness row for the batching claim. -/
def witnessRowB : Row := ⟨[("k", "b")]⟩

/-- Witness for claim C4 at concrete keys a and b with a constant model
executor. -/
theorem singularLoadMany_batches_dedupes_and_preserves_order_witness :
    singularLoadMany "k" "S" (fun _ _ => [witnessRowA, witnessRowB])
        ["a", "b", "a"] =
      ([some witnessRowA, some witnessRowB, some witnessRowA],
       [{ sql := "S", params := [["a", "b"]] }]) :=
  singularLoadMany_batches_dedupes_and_preserves_order "a" "b" "k" "S"
    witnessRowA witnessRowB (fun _ _ => [witnessRowA, witnessRowB])
    (by decide) rfl rfl rfl

/-- Claim C10: when the first path segment resolves to a foreign-key
description, `resolvedKeyColumnFromRelationship` yields the camel-cased
foreign-key column exactly when the traversal direction equals the stored
direction and id otherwise, `objectKeyColumnFromRelationship` the reverse, so
exactly one of the two yields the key column; when it resolves to a join-table
description both yield id. -/
theorem keyColumns_split_between_object_and_resolved
    (segmentDescriptionMap : SegmentDescriptionMap)
    (relationship : Relationship) (segment : RelationshipSegment)
    (description : RelationshipSegmentDescription)
    (hHead : relationship.path.head? = some segment)
    (hDesc : descriptionFromSegment segmentDescriptionMap segment =
      some description) :
    (∀ fk, description.storage = StorageDescription.foreignKey fk →
      (resolvedKeyColumnFromRelationship segmentDescriptionMap relationship =
        some (if segment.direction = fk.direction then camel fk.column
          else "id")) ∧
      (objectKeyColumnFromRelationship segmentDescriptionMap relationship =
        some (if segment.direction = fk.direction then "id"
          else camel fk.column)) ∧
      (camel fk.column ≠ "id" →
        resolvedKeyColumnFromRelationship segmentDescriptionMap relationship ≠
        objectKeyColumnFromRelationship segmentDescriptionMap relationship)) ∧
    (∀ jt, description.storage = StorageDescription.join jt →
      resolvedKeyColumnFromRelationship segmentDescriptionMap relationship =
        some "id" ∧
      objectKeyColumnFromRelationship segmentDescriptionMap relationship =
        some "id") := by
  constructor
  · intro fk hfk
    by_cases hdir : segment.direction = fk.direction
    · simp [resolvedKeyColumnFromRelationship,
        objectKeyColumnFromRelationship, hHead, hDesc, hfk, hdir]
    · simp [resolvedKeyColumnFromRelationship,
        objectKeyColumnFromRelationship, hHead, hDesc, hfk, hdir]
      intro hcam
      simp [Ne.symm hcam, hcam]
  · intro jt hjt
    simp [resolvedKeyColumnFromRelationship, objectKeyColumnFromRelationship,
      hHead, hDesc, hjt]

/-- The first segment of the key-column witness. -/
def keyColumnSegment : RelationshipSegment :=
  ⟨"A", "B", "l", .din, .singular, true⟩

/-- The foreign-key storage of the key-column witness, stored against the
traversal direction. -/
def keyColumnFk : ForeignKeyDescription :=
  ⟨.dout, true, "as", "bs", "l_by_b_id"⟩

/-- The description of the key-column witness. -/
def keyColumnDescription : RelationshipSegmentDescription :=
  ⟨"B|l|A", ⟨some keyColumnSegment, none⟩, .foreignKey keyColumnFk⟩

/-- The description map of the key-column witness. -/
def keyColumnMap : SegmentDescriptionMap :=
  [("B|l|A", keyColumnDescription)]

/-- The relationship of the key-column witness. -/
def keyColumnRelationship : Relationship :=
  ⟨"f", .singular, [keyColumnSegment]⟩

/-- Witness for claim C10: with a foreign key stored against the traversal
direction, the resolved key column is id and the object key column is the
camel-cased foreign-key column. -/
theorem keyColumns_split_between_object_and_resolved_witness :
    resolvedKeyColumnFromRelationship keyColumnMap keyColumnRelationship =
      some "id" ∧
    objectKeyColumnFromRelationship keyColumnMap keyColumnRelationship =
      some "lByBId" := by
  have h := (keyColumns_split_between_object_and_resolved keyColumnMap
    keyColumnRelationship keyColumnSegment keyColumnDescription rfl rfl).1
    keyColumnFk rfl
  exact ⟨by simpa using h.1, by simpa using h.2.1⟩

/-- The order column the pagination extension selects: the implicit seq
column unless an explicit order field is given. -/
def connectionOrderColumn (args : ConnectionArguments) : String :=
  match args.order with
  | none => "seq"
  | some o => snake o

/-- The correlated subquery resolving the value of the order column on the
cursor row. -/
def cursorSubquery (query : Query) (args : ConnectionArguments) : String :=
  "(SELECT " ++ connectionOrderColumn args ++ " FROM " ++ query.table ++
    " WHERE id = $2)"

/-- Claim C8: for every accepted connection-argument set, the order column is
the implicit seq column unless an explicit order field is given, the
direction is ascending unless last or before is supplied, the limit equals
first or else last, and after (respectively before) appends exactly one
condition comparing the order column with operator greater-than (respectively
less-than) against the correlated cursor subquery. -/
theorem applyConnectionArgs_order_limit_and_cursor_condition
    (query : Query) (args : ConnectionArguments) (result : Query)
    (h : applyConnectionArgs query args = Except.ok result) :
    result.order = some
      { column := connectionOrderColumn args
        direction :=
          if args.last ≠ none ∨ args.before ≠ none then "DESC" else "ASC" } ∧
    result.limit =
      (match args.first with | some f => some f | none => args.last) ∧
    (args.after = none → args.before = none →
      result.conditions = query.conditions) ∧
    (args.after ≠ none →
      result.conditions = query.conditions ++
        [{ table := query.table, column := connectionOrderColumn args,
           operator := ">", value := cursorSubquery query args }]) ∧
    (args.before ≠ none →
      result.conditions = query.conditions ++
        [{ table := query.table, column := connectionOrderColumn args,
           operator := "<", value := cursorSubquery query args }]) := by
  unfold applyConnectionArgs at h
  dsimp only at h
  split at h
  case isFalse => exact absurd h (by simp)
  case isTrue hguard =>
    rw [Except.ok.injEq] at h
    subst h
    refine ⟨rfl, rfl, ?_, ?_, ?_⟩
    · intro hafter hbefore
      simp [hafter, hbefore]
    · intro hafter
      simp [connectionOrderColumn, cursorSubquery, hafter]
    · intro hbefore
      have hafter : args.after = none := by
        rcases hguard with ⟨h1, h2⟩ | ⟨h1, h2⟩
        · exact h2
        · exact absurd h2 hbefore
      simp [connectionOrderColumn, cursorSubquery, hafter, hbefore]

/-- The base query of the pagination witness. -/
def paginationBaseQuery : Query :=
  { table := "posts"
    joins := []
    conditions := [{ table := "posts", column := "author_id",
                     operator := "=", value := "ANY ($1)" }]
    batched := true }

/-- The connection arguments of the pagination witness: forward paging with
first and after. -/
def paginationArgs : ConnectionArguments :=
  { first := some 3, after := some "cursor" }

/-- The query the pagination extension produces for the witness input. -/
def paginationResult : Query :=
  { table := "posts"
    joins := []
    conditions := [{ table := "posts", column := "author_id",
                     operator := "=", value := "ANY ($1)" },
                   { table := "posts", column := "seq", operator := ">",
                     value := "(SELECT seq FROM posts WHERE id = $2)" }]
    limit := some 3
    order := some { column := "seq", direction := "ASC" }
    batched := false }

/-- Witness for claim C8 at a concrete forward-paging argument set. -/
theorem applyConnectionArgs_order_limit_and_cursor_condition_witness :
    applyConnectionArgs paginationBaseQuery paginationArgs =
      Except.ok paginationResult ∧
    paginationResult.order = some { column := "seq", direction := "ASC" } ∧
    paginationResult.limit = some 3 ∧
    paginationResult.conditions = paginationBaseQuery.conditions ++
      [{ table := "posts", column := "seq", operator := ">",
         value := "(SELECT seq FROM posts WHERE id = $2)" }] := by
  have h := applyConnectionArgs_order_limit_and_cursor_condition
    paginationBaseQuery paginationArgs paginationResult rfl
  refine ⟨rfl, by simpa using h.1, by simpa using h.2.1, ?_⟩
  simpa [cursorSubquery, connectionOrderColumn, paginationArgs,
    paginationBaseQuery] using h.2.2.2.1 (by simp [paginationArgs])

/-- The canonical owning segment of a foreign-key pair, following the wording
of the amended claim C1: a single declared direction is normalized to inbound
form; with both directions declared the in segment is chosen when it is
plural or when the out segment is not-null while the in segment is not, and
the out segment otherwise. -/
def canonicalOwningSegment (pair : RelationshipSegmentPair) :
    Option RelationshipSegment :=
  match pair.inSeg, pair.outSeg with
  | none, none => none
  | none, some o =>
      some { o with
        direction := Direction.din
        fromType := o.toType
        toType := o.fromType }
  | some i, none => some i
  | some i, some o =>
      some
        (if i.cardinality = Cardinality.plural ∨ (o.nonNull ∧ ¬ i.nonNull)
         then i else o)

/-- An inbound non-null singular segment (Post authored-by User). -/
def inNonNullSingular : RelationshipSegment :=
  ⟨"Post", "User", "authored", .din, .singular, true⟩

/-- An inbound nullable singular segment (Post authored-by User). -/
def inNullableSingular : RelationshipSegment :=
  ⟨"Post", "User", "authored", .din, .singular, false⟩

/-- An outbound non-null singular segment (User authored Post). -/
def outNonNullSingular : RelationshipSegment :=
  ⟨"User", "Post", "authored", .dout, .singular, true⟩

/-- Claim C1 (amended): the canonical owning segment is the single declared
direction normalized to inbound form, or, with both directions declared, the
in segment when it is plural or the out segment is not-null while the in
segment is not, and the out segment otherwise; the foreign key lives on the
table of the toType of that segment and references the table of its fromType.
In particular {in: nonNull singular, out: null} and
{in: nullable singular, out: nonNull singular} both place the key on the
table of in.toType. -/
theorem foreignKey_placed_on_owning_segment_toType :
    (∀ (pair : RelationshipSegmentPair) (s : RelationshipSegment),
      canonicalOwningSegment pair = some s →
      ∃ fk, foreignKeyDescriptionFromRelationshipSegmentPair pair =
          Except.ok fk ∧
        fk.table = tableNameFromTypeName s.toType ∧
        fk.referencedTable = tableNameFromTypeName s.fromType ∧
        fk.direction = s.direction) ∧
    ((foreignKeyDescriptionFromRelationshipSegmentPair
        ⟨some inNonNullSingular, none⟩).map (·.table) =
      Except.ok (tableNameFromTypeName inNonNullSingular.toType)) ∧
    ((foreignKeyDescriptionFromRelationshipSegmentPair
        ⟨some inNullableSingular, some outNonNullSingular⟩).map (·.table) =
      Except.ok (tableNameFromTypeName inNullableSingular.toType)) := by
  refine ⟨?_, rfl, rfl⟩
  intro pair s h
  obtain ⟨i, o⟩ := pair
  rcases i with _ | i <;> rcases o with _ | o
  · exact absurd h (by simp [canonicalOwningSegment])
  · simp only [canonicalOwningSegment, Option.some.injEq] at h
    subst h
    exact ⟨_, rfl, rfl, rfl, rfl⟩
  · simp only [canonicalOwningSegment, Option.some.injEq] at h
    subst h
    exact ⟨_, rfl, rfl, rfl, rfl⟩
  · simp only [canonicalOwningSegment, Option.some.injEq] at h
    subst h
    exact ⟨_, rfl, rfl, rfl, rfl⟩

/-- Witness for the amended claim C1 at the pair with a single inbound
non-null singular segment. -/
theorem foreignKey_placed_on_owning_segment_toType_witness :
    ∃ fk, foreignKeyDescriptionFromRelationshipSegmentPair
        ⟨some inNonNullSingular, none⟩ = Except.ok fk ∧
      fk.table = tableNameFromTypeName inNonNullSingular.toType ∧
      fk.referencedTable = tableNameFromTypeName inNonNullSingular.fromType ∧
      fk.direction = inNonNullSingular.direction :=
  foreignKey_placed_on_owning_segment_toType.1
    ⟨some inNonNullSingular, none⟩ inNonNullSingular rfl

/-- Claim C1 counterexample: the pair {in: nullable singular, out: nonNull
singular} stores the key on the users table although the claim places it on
the table of the out segment (posts), and the pair {in: nonNull singular,
out: null} stores it on the users table although the claim places it on the
table of in.fromType (posts). -/
theorem foreignKey_placement_differs_from_claimed :
    ((foreignKeyDescriptionFromRelationshipSegmentPair
        ⟨some inNullableSingular, some outNonNullSingular⟩).map (·.table) =
      Except.ok "users") ∧
    tableNameFromTypeName outNonNullSingular.toType = "posts" ∧
    ((foreignKeyDescriptionFromRelationshipSegmentPair
        ⟨some inNonNullSingular, none⟩).map (·.table) =
      Except.ok "users") ∧
    tableNameFromTypeName inNonNullSingular.fromType = "posts" ∧
    ("users" : String) ≠ "posts" := by
  exact ⟨rfl, rfl, rfl, rfl, by decide⟩

/-- The flip of a direction (the opposite endpoint declares the hop the other
way round). -/
def flipDirection : Direction → Direction
  | .din => .dout
  | .dout => .din

/-- A relationship exposing a single hop. -/
def singleSegmentRelationship (s : RelationshipSegment) : Relationship :=
  ⟨"r", s.cardinality, [s]⟩

/-- Project a resolver output to the storage decisions (signature plus
storage), the content of a description as the spec data model defines it. -/
def storageDecisions
    (r : Except String (List RelationshipSegmentDescription)) :
    Except String (List (String × StorageDescription)) :=
  r.map (fun l => l.map (fun d => (d.signature, d.storage)))

/-- Claim C3: two segment declarations describing the same relationship from
opposite endpoints (same label, endpoint types swapped, direction flipped)
receive the same pairing signature, and the segment resolver derives the
identical storage decision no matter which endpoint declared the
relationship. -/
theorem pairingSignature_and_storage_endpoint_independent
    (s sFlip : RelationshipSegment)
    (hLabel : sFlip.label = s.label)
    (hFrom : sFlip.fromType = s.toType)
    (hTo : sFlip.toType = s.fromType)
    (hDir : sFlip.direction = flipDirection s.direction) :
    pairingSignatureFromRelationshipSegment sFlip =
      pairingSignatureFromRelationshipSegment s ∧
    (sFlip.cardinality = s.cardinality → sFlip.nonNull = s.nonNull →
      storageDecisions
        (segmentDescriptionsFromRelationships
          [singleSegmentRelationship s]) =
      storageDecisions
        (segmentDescriptionsFromRelationships
          [singleSegmentRelationship sFlip])) := by
  obtain ⟨f, t, l, d, c, n⟩ := s
  obtain ⟨f2, t2, l2, d2, c2, n2⟩ := sFlip
  dsimp only at hLabel hFrom hTo hDir
  subst hLabel hFrom hTo hDir
  constructor
  · cases d <;> rfl
  · intro hc hn
    dsimp only at hc hn
    subst hc hn
    cases d <;> cases c2 <;> cases n2 <;> rfl

/-- The flip of the Author --out:wrote--> Post hop: the declaration of the
same relationship from the Post endpoint. -/
def wroteFlippedSegment : RelationshipSegment :=
  ⟨"Post", "Author", "wrote", .din, .plural, false⟩

/-- Witness for claim C3 at the wrote hop declared from either endpoint. -/
theorem pairingSignature_and_storage_endpoint_independent_witness :
    pairingSignatureFromRelationshipSegment wroteFlippedSegment =
      pairingSignatureFromRelationshipSegment authorWroteSegment ∧
    storageDecisions
      (segmentDescriptionsFromRelationships
        [singleSegmentRelationship authorWroteSegment]) =
    storageDecisions
      (segmentDescriptionsFromRelationships
        [singleSegmentRelationship wroteFlippedSegment]) := by
  have h := pairingSignature_and_storage_endpoint_independent
    authorWroteSegment wroteFlippedSegment rfl rfl rfl rfl
  exact ⟨h.1, h.2 rfl rfl⟩

end Gestalt
